import Mathlib

/-!
Shallow embedding of the autoschematic GitHub connector
(addressing, resource data model, RON body decoding, diff/plan engine),
translated from `src/addr.rs`, `src/resource.rs`, `src/op.rs`,
`src/config.rs`, `src/connector.rs` and `src/connector/plan.rs`.

Modelling conventions:
* Rust `String` becomes Lean `String`; paths are the strings produced by
  `to_path_buf`, and `Path::components` is modelled by `pathComponents`
  (split on `/`, keep a leading root or `"."` component, drop the other
  empty and `"."` components — Rust's normalisation).  A raw `&Path`
  argument, which on Unix may hold bytes that are not valid UTF-8, is
  modelled by `OsPath`: either an entirely valid UTF-8 path (carried as
  its string) or a path containing a non-UTF-8 region; the
  per-component `to_str().unwrap()` of `from_path` panics on the
  latter, and that panic is modelled as `none` in `from_path_os`.
* A byte buffer (`Vec<u8>`) holding a serialized resource body is
  modelled by `Bytes`: either a well-formed RON struct document (a list
  of named fields holding RON values) or a `malformed` buffer that fails
  UTF-8 or RON parsing.  Two distinct `Bytes` values (e.g. reordered or
  omitted-with-default fields) can decode to the same resource body,
  which captures formatting-insensitivity; byte-for-byte equality of
  buffers is equality of `Bytes` values.
* `serde` struct deserialization driven by the attributes declared in
  `src/resource.rs` / `src/config.rs` (`deny_unknown_fields`, and
  container-level `default` on `GitHubRepository`) is modelled by the
  `decode*` functions: unknown fields and duplicate fields are rejected,
  ill-typed values are rejected, and missing fields are either filled
  from `Default` (repository) or rejected (the other structs).
* `HashMap<CollaboratorPrincipal, Role>` is modelled as an association
  list kept sorted by principal with no duplicate keys, so that list
  equality coincides with the unordered equality of the hash map; a
  repeated map key in a document is overwritten by the later entry, as
  under `serde`'s `HashMap` deserialization.
-/

/-- A flat RON value appearing as a field of a nested struct literal
(the nested structs of this schema — `RequiredStatusChecks`,
`PullRequestReviewEnforcement`, `BranchRestrictions` — hold only
booleans, unsigned integers, strings and string lists). -/
inductive RonField where
  | fBool (b : Bool)
  | fNat (n : Nat)
  | fStr (s : String)
  | fStrList (vs : List String)
deriving DecidableEq, Repr

/-- A RON value as it appears as a top-level field of a serialized
resource body.  The grammar is layered rather than fully recursive
because the schema of `src/resource.rs` / `src/config.rs` nests structs
only one level deep; every value shape a body of this schema (or an
ill-typed or unknown field of one) can hold is representable. -/
inductive RonVal where
  | vBool (b : Bool)
  | vNat (n : Nat)
  | vStr (s : String)
  | vOptStr (v : Option String)
  | vStrList (vs : List String)
  | vEnum (ctor : String) (args : List String)
  | vMap (kvs : List ((String × List String) × (String × List String)))
  | vRec (fields : List (String × RonField))
  | vOptRec (v : Option (List (String × RonField)))
deriving DecidableEq, Repr

/-- A byte buffer handed to `plan` / `eq` / `diag`: either a RON struct
document (list of named fields) or a buffer that fails UTF-8 decoding or
RON parsing. -/
inductive Bytes where
  | malformed (raw : String)
  | doc (fields : List (String × RonVal))
deriving DecidableEq, Repr

/-- `CollaboratorPrincipal` from `src/resource.rs`: a principal that can
be granted collaborator access to a repository. -/
inductive CollaboratorPrincipal where
  | User (name : String)
  | Team (name : String)
deriving DecidableEq, Repr

/-- `Role` from `src/resource.rs`: permission level for repository
collaborators. -/
inductive Role where
  | Read
  | Triage
  | Write
  | Maintain
  | Admin
  | Custom (s : String)
deriving DecidableEq, Repr

/-- `Role::to_string` from `src/resource.rs`. -/
def Role.to_string : Role → String
  | .Read => "read"
  | .Triage => "triage"
  | .Write => "write"
  | .Maintain => "maintain"
  | .Admin => "admin"
  | .Custom s => s

/-- `Role::from_str` from `src/resource.rs` (the Rust `match` on string
literals is compiled to a chain of equality tests). -/
def Role.from_str (s : String) : Role :=
  if s = "read" then .Read
  else if s = "triage" then .Triage
  else if s = "write" then .Write
  else if s = "maintain" then .Maintain
  else if s = "admin" then .Admin
  else .Custom s

/-- `GitHubRepository` from `src/resource.rs`.  The
`collaborators : HashMap<CollaboratorPrincipal, Role>` field is modelled
as an association list kept sorted by principal and free of duplicate
keys (the canonical representative of the unordered map). -/
structure GitHubRepository where
  description : Option String
  homepage : Option String
  topics : List String
  «private» : Bool
  has_issues : Bool
  has_projects : Bool
  has_wiki : Bool
  allow_squash_merge : Bool
  allow_merge_commit : Bool
  allow_rebase_merge : Bool
  allow_auto_merge : Bool
  delete_branch_on_merge : Bool
  default_branch : String
  archived : Bool
  disabled : Bool
  collaborators : List (CollaboratorPrincipal × Role)
deriving DecidableEq, Repr

/-- `impl Default for GitHubRepository` from `src/resource.rs`. -/
def defaultGitHubRepository : GitHubRepository where
  description := none
  homepage := none
  topics := []
  «private» := true
  has_issues := true
  has_projects := true
  has_wiki := true
  allow_squash_merge := true
  allow_merge_commit := true
  allow_rebase_merge := true
  allow_auto_merge := false
  delete_branch_on_merge := false
  default_branch := "main"
  archived := false
  disabled := false
  collaborators := []

/-- `RequiredStatusChecks` from `src/resource.rs`. -/
structure RequiredStatusChecks where
  strict : Bool
  contexts : List String
deriving DecidableEq, Repr

/-- `PullRequestReviewEnforcement` from `src/resource.rs`
(`required_approving_review_count` is a `u32`). -/
structure PullRequestReviewEnforcement where
  required_approving_review_count : Nat
  dismiss_stale_reviews : Bool
  require_code_owner_reviews : Bool
  require_last_push_approval : Bool
deriving DecidableEq, Repr

/-- `BranchRestrictions` from `src/resource.rs`. -/
structure BranchRestrictions where
  users : List String
  teams : List String
  apps : List String
deriving DecidableEq, Repr

/-- `BranchProtection` from `src/resource.rs`. -/
structure BranchProtection where
  required_status_checks : Option RequiredStatusChecks
  enforce_admins : Bool
  required_pull_request_reviews : Option PullRequestReviewEnforcement
  restrictions : Option BranchRestrictions
  required_linear_history : Bool
  allow_force_pushes : Bool
  allow_deletions : Bool
  block_creations : Bool
  required_conversation_resolution : Bool
  lock_branch : Bool
  allow_fork_syncing : Bool
deriving DecidableEq, Repr

/-- Modelled from the spec: the `resource::CollaboratorPermissions`
struct is referenced by `src/connector/get.rs` but its definition is
missing from `src/resource.rs` (the source mixes the two collaborator
designs of spec §9).  Its fields are the five permission booleans with
which `get.rs` constructs it. -/
structure CollaboratorPermissions where
  pull : Bool
  triage : Bool
  push : Bool
  maintain : Bool
  admin : Bool
deriving DecidableEq, Repr

/-- Modelled from the spec: the `resource::Collaborator` body struct is
referenced by `src/connector/plan.rs`, `src/connector/get.rs` and
`src/op.rs` but its definition is missing from `src/resource.rs`.  Its
fields (`permissions`, `role_name`) are those with which `get.rs`
constructs it and which `op_exec.rs` reads. -/
structure Collaborator where
  permissions : CollaboratorPermissions
  role_name : String
deriving DecidableEq, Repr

/-- `GitHubConnectorConfig` from `src/config.rs`. -/
structure GitHubConnectorConfig where
  orgs : List String
  users : List String
  enterprise_url : Option String
  concurrent_requests : Nat
deriving DecidableEq, Repr

/-- `GitHubResourceAddress` from `src/addr.rs`. -/
inductive GitHubResourceAddress where
  | Config
  | Repository (owner repo : String)
  | BranchProtection (owner repo branch : String)
  | Collaborator (owner repo username : String)
deriving DecidableEq, Repr

namespace GitHubResourceAddress

/-- `GitHubResourceAddress::to_path_buf` from `src/addr.rs` (the
`format!` calls spelled out as string concatenation). -/
def to_path_buf : GitHubResourceAddress → String
  | .Config => "github/config.ron"
  | .Repository owner repo => "github/" ++ owner ++ "/" ++ repo ++ "/repository.ron"
  | .BranchProtection owner repo branch =>
      "github/" ++ owner ++ "/" ++ repo ++ "/branches/" ++ branch ++ "/protection.ron"
  | .Collaborator owner repo username =>
      "github/" ++ owner ++ "/" ++ repo ++ "/collaborators/" ++ username ++ ".ron"

end GitHubResourceAddress

/-- Split a character list at every `/`. -/
def splitOnSlash : List Char → List (List Char)
  | [] => [[]]
  | c :: cs =>
      if c = '/' then [] :: splitOnSlash cs
      else
        match splitOnSlash cs with
        | [] => [[c]]
        | h :: t => (c :: h) :: t

/-- `Path::components` on a slash-separated path string, with each
component viewed as a string (`as_os_str().to_str()`): split on `/`;
a leading empty region of a non-empty path denotes the root separator
and yields the `RootDir` component `"/"`; a leading `"."` region is the
`CurDir` component, which Rust preserves at the beginning of a relative
path; every other empty or `"."` region is normalized away (`".."`
regions are `ParentDir` components and are kept). -/
def pathComponents (s : String) : List String :=
  match splitOnSlash s.data with
  | [] => []
  | r0 :: rest =>
    let tail := (rest.filter (fun c => !(c.isEmpty || c = ['.']))).map (fun c => String.mk c)
    if r0 = [] then
      if s.data = [] then [] else "/" :: tail
    else if r0 = ['.'] then "." :: tail
    else String.mk r0 :: tail

/-- The error built by `autoschematic_core::error_util::invalid_addr_path`:
a structured invalid-address error carrying the offending path. -/
structure InvalidAddress where
  path : String
deriving DecidableEq, Repr

/-- `str::ends_with(".ron")` on a component's characters. -/
def endsWithRon (l : List Char) : Bool :=
  l.reverse.take 4 = ['n', 'o', 'r', '.']

/-- `str::strip_suffix(".ron")` on a component's characters (the suffix is
known to be present when this is called). -/
def stripRonSuffix (l : List Char) : List Char :=
  (l.reverse.drop 4).reverse

namespace GitHubResourceAddress

/-- `GitHubResourceAddress::from_path` from `src/addr.rs`: match the
component sequence against the known shapes (the Rust literal patterns
are compiled to equality tests); anything else is a structured
`InvalidAddress` error carrying the offending path. -/
def from_path (path : String) : Except InvalidAddress GitHubResourceAddress :=
  match pathComponents path with
  | [c0, owner, repo, c3] =>
      if c0 = "github" ∧ c3 = "repository.ron" then
        .ok (.Repository owner repo)
      else .error ⟨path⟩
  | [c0, owner, repo, c3, c4, c5] =>
      if c0 = "github" ∧ c3 = "branches" ∧ c5 = "protection.ron" then
        .ok (.BranchProtection owner repo c4)
      else .error ⟨path⟩
  | [c0, owner, repo, c3, c4] =>
      if c0 = "github" ∧ c3 = "collaborators" ∧ endsWithRon c4.data then
        .ok (.Collaborator owner repo (String.mk (stripRonSuffix c4.data)))
      else .error ⟨path⟩
  | _ => .error ⟨path⟩

end GitHubResourceAddress

/-- A raw OS path as `from_path` receives it (`&Path`): on Unix a path
is an arbitrary byte sequence.  It either is entirely valid UTF-8 —
equivalently, every `/`-separated component is, since the separator is
ASCII — and is carried as the decoded string, or it contains a
non-UTF-8 byte region and is carried as its raw bytes. -/
inductive OsPath where
  | utf8 (p : String)
  | hasNonUtf8 (raw : List Nat)
deriving DecidableEq, Repr

/-- `GitHubResourceAddress::from_path` on a raw OS path, keeping the
panic path of `src/addr.rs` line 28: the Rust code maps
`as_os_str().to_str().unwrap()` over the components *before* any shape
matching, and `to_str()` returns `None` on a non-UTF-8 component, so
`.unwrap()` panics whenever the path holds a non-UTF-8 region (a panic
is modelled as `none`).  On an all-UTF-8 path every `to_str` succeeds
and the shape matching of `from_path` runs. -/
def from_path_os : OsPath → Option (Except InvalidAddress GitHubResourceAddress)
  | .utf8 p => some (GitHubResourceAddress.from_path p)
  | .hasNonUtf8 _ => none

/-- Errors produced while decoding a body byte buffer into a resource
struct: UTF-8 / RON syntax failure, or a schema violation from the
`serde` attributes of `src/resource.rs` / `src/config.rs`
(`deny_unknown_fields`, duplicate fields, ill-typed values, missing
required fields). -/
inductive DecodeError where
  | malformedInput (raw : String)
  | unknownField (name : String)
  | duplicateField (name : String)
  | missingField (name : String)
  | fieldType (name : String)
deriving DecidableEq, Repr

/-- First field name of a document that is not in the schema's field
list. -/
def firstUnknown (allowed : List String) (names : List String) : Option String :=
  names.find? (fun n => !(allowed.contains n))

/-- First field name that occurs twice in a document. -/
def firstDup : List String → Option String
  | [] => none
  | n :: rest => if rest.contains n then some n else firstDup rest

/-- The schema checks shared by every struct deserializer generated with
`deny_unknown_fields`: reject unknown and duplicated field names.
(`serde` reports the first offense in document order; this model checks
unknown names before duplicates, which agrees with `serde` on whether a
document is rejected and on the decoded value of accepted documents.) -/
def checkFields (allowed : List String) (fs : List (String × RonVal)) : Except DecodeError Unit :=
  match firstUnknown allowed (fs.map Prod.fst) with
  | some n => .error (.unknownField n)
  | none =>
    match firstDup (fs.map Prod.fst) with
    | some n => .error (.duplicateField n)
    | none => .ok ()

/-- A field of a struct whose container carries `#[serde(default)]`:
missing fields are taken from the struct's `Default` value. -/
def fieldOpt {A : Type} (fs : List (String × RonVal)) (name : String)
    (dec : RonVal → Option A) (dflt : A) : Except DecodeError A :=
  match List.lookup name fs with
  | none => .ok dflt
  | some v =>
    match dec v with
    | some a => .ok a
    | none => .error (.fieldType name)

/-- A required field of a struct without `#[serde(default)]`. -/
def fieldReq {A : Type} (fs : List (String × RonVal)) (name : String)
    (dec : RonVal → Option A) : Except DecodeError A :=
  match List.lookup name fs with
  | none => .error (.missingField name)
  | some v =>
    match dec v with
    | some a => .ok a
    | none => .error (.fieldType name)

def asBool : RonVal → Option Bool
  | .vBool b => some b
  | _ => none

def asNat : RonVal → Option Nat
  | .vNat n => some n
  | _ => none

def asStr : RonVal → Option String
  | .vStr s => some s
  | _ => none

def asOptStr : RonVal → Option (Option String)
  | .vOptStr v => some v
  | _ => none

def asStrList : RonVal → Option (List String)
  | .vStrList vs => some vs
  | _ => none

def asFBool : RonField → Option Bool
  | .fBool b => some b
  | _ => none

def asFNat : RonField → Option Nat
  | .fNat n => some n
  | _ => none

def asFStrList : RonField → Option (List String)
  | .fStrList vs => some vs
  | _ => none

/-- Deserialize a `CollaboratorPrincipal` map key from its RON enum
literal. -/
def decodePrincipal : String × List String → Option CollaboratorPrincipal
  | ("User", [n]) => some (.User n)
  | ("Team", [n]) => some (.Team n)
  | _ => none

/-- Deserialize a `Role` map value from its RON enum literal (the
derived `serde` instance, externally tagged — not `Role::from_str`). -/
def decodeRole : String × List String → Option Role
  | ("Read", []) => some .Read
  | ("Triage", []) => some .Triage
  | ("Write", []) => some .Write
  | ("Maintain", []) => some .Maintain
  | ("Admin", []) => some .Admin
  | ("Custom", [s]) => some (.Custom s)
  | _ => none

/-- Total order on principals used to keep the association list that
models `HashMap<CollaboratorPrincipal, Role>` in canonical (sorted,
duplicate-free) form. -/
def principalCmp : CollaboratorPrincipal → CollaboratorPrincipal → Ordering
  | .User x, .User y => compare x y
  | .User _, .Team _ => .lt
  | .Team _, .User _ => .gt
  | .Team x, .Team y => compare x y

/-- `HashMap::insert` on the canonical sorted association list: the
inserted entry overwrites any previous entry with the same key. -/
def insertCollab (k : CollaboratorPrincipal) (r : Role) :
    List (CollaboratorPrincipal × Role) → List (CollaboratorPrincipal × Role)
  | [] => [(k, r)]
  | (k', r') :: rest =>
    match principalCmp k k' with
    | .lt => (k, r) :: (k', r') :: rest
    | .eq => (k, r) :: rest
    | .gt => (k', r') :: insertCollab k r rest

/-- Deserialize the `collaborators` map entries in document order,
inserting each into the accumulated canonical association list as it is
read, so that a repeated key ends with the *last* entry's role — as
`serde`'s `HashMap` deserialization does, where each entry is `insert`ed
in turn and a later duplicate overwrites the earlier one. -/
def collabInsertAll (acc : List (CollaboratorPrincipal × Role)) :
    List ((String × List String) × (String × List String)) →
    Option (List (CollaboratorPrincipal × Role))
  | [] => some acc
  | (k, v) :: rest => do
    let p ← decodePrincipal k
    let r ← decodeRole v
    collabInsertAll (insertCollab p r acc) rest

/-- Deserialize the `collaborators` map entries into the canonical
association list, starting from the empty map. -/
def collabFromEntries (kvs : List ((String × List String) × (String × List String))) :
    Option (List (CollaboratorPrincipal × Role)) :=
  collabInsertAll [] kvs

def asCollabMap : RonVal → Option (List (CollaboratorPrincipal × Role))
  | .vMap kvs => collabFromEntries kvs
  | _ => none

/-- The schema field list of `GitHubRepository`. -/
def repoFieldNames : List String :=
  ["description", "homepage", "topics", "private", "has_issues", "has_projects",
   "has_wiki", "allow_squash_merge", "allow_merge_commit", "allow_rebase_merge",
   "allow_auto_merge", "delete_branch_on_merge", "default_branch", "archived",
   "disabled", "collaborators"]

/-- Deserialization of a `GitHubRepository` RON document, following the
`#[serde(default, deny_unknown_fields)]` attributes of `src/resource.rs`:
unknown or duplicated fields are rejected, ill-typed values are
rejected, and fields missing from the document are filled from
`Default::default()`. -/
def decodeGitHubRepositoryDoc (fs : List (String × RonVal)) :
    Except DecodeError GitHubRepository := do
  checkFields repoFieldNames fs
  let description ← fieldOpt fs "description" asOptStr defaultGitHubRepository.description
  let homepage ← fieldOpt fs "homepage" asOptStr defaultGitHubRepository.homepage
  let topics ← fieldOpt fs "topics" asStrList defaultGitHubRepository.topics
  let priv ← fieldOpt fs "private" asBool defaultGitHubRepository.«private»
  let has_issues ← fieldOpt fs "has_issues" asBool defaultGitHubRepository.has_issues
  let has_projects ← fieldOpt fs "has_projects" asBool defaultGitHubRepository.has_projects
  let has_wiki ← fieldOpt fs "has_wiki" asBool defaultGitHubRepository.has_wiki
  let allow_squash_merge ← fieldOpt fs "allow_squash_merge" asBool defaultGitHubRepository.allow_squash_merge
  let allow_merge_commit ← fieldOpt fs "allow_merge_commit" asBool defaultGitHubRepository.allow_merge_commit
  let allow_rebase_merge ← fieldOpt fs "allow_rebase_merge" asBool defaultGitHubRepository.allow_rebase_merge
  let allow_auto_merge ← fieldOpt fs "allow_auto_merge" asBool defaultGitHubRepository.allow_auto_merge
  let delete_branch_on_merge ← fieldOpt fs "delete_branch_on_merge" asBool defaultGitHubRepository.delete_branch_on_merge
  let default_branch ← fieldOpt fs "default_branch" asStr defaultGitHubRepository.default_branch
  let archived ← fieldOpt fs "archived" asBool defaultGitHubRepository.archived
  let disabled ← fieldOpt fs "disabled" asBool defaultGitHubRepository.disabled
  let collaborators ← fieldOpt fs "collaborators" asCollabMap defaultGitHubRepository.collaborators
  return { description, homepage, topics, «private» := priv, has_issues,
           has_projects, has_wiki, allow_squash_merge, allow_merge_commit,
           allow_rebase_merge, allow_auto_merge, delete_branch_on_merge,
           default_branch, archived, disabled, collaborators }

/-- Deserialization of a nested `RequiredStatusChecks` struct literal
(`#[serde(deny_unknown_fields)]`, no `default`: every field required). -/
def decodeRequiredStatusChecksRec (fs : List (String × RonField)) :
    Option RequiredStatusChecks := do
  let strict ← (List.lookup "strict" fs).bind asFBool
  let contexts ← (List.lookup "contexts" fs).bind asFStrList
  if (fs.map Prod.fst).all (fun n => n = "strict" ∨ n = "contexts")
      ∧ (firstDup (fs.map Prod.fst)).isNone then
    return { strict, contexts }
  else none

/-- Deserialization of a nested `PullRequestReviewEnforcement` struct
literal. -/
def decodePRReviewEnforcementRec (fs : List (String × RonField)) :
    Option PullRequestReviewEnforcement := do
  let required_approving_review_count ← (List.lookup "required_approving_review_count" fs).bind asFNat
  let dismiss_stale_reviews ← (List.lookup "dismiss_stale_reviews" fs).bind asFBool
  let require_code_owner_reviews ← (List.lookup "require_code_owner_reviews" fs).bind asFBool
  let require_last_push_approval ← (List.lookup "require_last_push_approval" fs).bind asFBool
  if (fs.map Prod.fst).all (fun n =>
        n = "required_approving_review_count" ∨ n = "dismiss_stale_reviews"
        ∨ n = "require_code_owner_reviews" ∨ n = "require_last_push_approval")
      ∧ (firstDup (fs.map Prod.fst)).isNone then
    return { required_approving_review_count, dismiss_stale_reviews,
             require_code_owner_reviews, require_last_push_approval }
  else none

/-- Deserialization of a nested `BranchRestrictions` struct literal. -/
def decodeBranchRestrictionsRec (fs : List (String × RonField)) :
    Option BranchRestrictions := do
  let users ← (List.lookup "users" fs).bind asFStrList
  let teams ← (List.lookup "teams" fs).bind asFStrList
  let apps ← (List.lookup "apps" fs).bind asFStrList
  if (fs.map Prod.fst).all (fun n => n = "users" ∨ n = "teams" ∨ n = "apps")
      ∧ (firstDup (fs.map Prod.fst)).isNone then
    return { users, teams, apps }
  else none

def asOptRSC : RonVal → Option (Option RequiredStatusChecks)
  | .vOptRec none => some none
  | .vOptRec (some fs) => (decodeRequiredStatusChecksRec fs).map some
  | _ => none

def asOptPRRE : RonVal → Option (Option PullRequestReviewEnforcement)
  | .vOptRec none => some none
  | .vOptRec (some fs) => (decodePRReviewEnforcementRec fs).map some
  | _ => none

def asOptRestrictions : RonVal → Option (Option BranchRestrictions)
  | .vOptRec none => some none
  | .vOptRec (some fs) => (decodeBranchRestrictionsRec fs).map some
  | _ => none

/-- The schema field list of `BranchProtection`. -/
def bpFieldNames : List String :=
  ["required_status_checks", "enforce_admins", "required_pull_request_reviews",
   "restrictions", "required_linear_history", "allow_force_pushes",
   "allow_deletions", "block_creations", "required_conversation_resolution",
   "lock_branch", "allow_fork_syncing"]

/-- Deserialization of a `BranchProtection` RON document
(`#[serde(deny_unknown_fields)]`, no `default`: every field required). -/
def decodeBranchProtectionDoc (fs : List (String × RonVal)) :
    Except DecodeError BranchProtection := do
  checkFields bpFieldNames fs
  let required_status_checks ← fieldReq fs "required_status_checks" asOptRSC
  let enforce_admins ← fieldReq fs "enforce_admins" asBool
  let required_pull_request_reviews ← fieldReq fs "required_pull_request_reviews" asOptPRRE
  let restrictions ← fieldReq fs "restrictions" asOptRestrictions
  let required_linear_history ← fieldReq fs "required_linear_history" asBool
  let allow_force_pushes ← fieldReq fs "allow_force_pushes" asBool
  let allow_deletions ← fieldReq fs "allow_deletions" asBool
  let block_creations ← fieldReq fs "block_creations" asBool
  let required_conversation_resolution ← fieldReq fs "required_conversation_resolution" asBool
  let lock_branch ← fieldReq fs "lock_branch" asBool
  let allow_fork_syncing ← fieldReq fs "allow_fork_syncing" asBool
  return { required_status_checks, enforce_admins, required_pull_request_reviews,
           restrictions, required_linear_history, allow_force_pushes,
           allow_deletions, block_creations, required_conversation_resolution,
           lock_branch, allow_fork_syncing }

/-- Deserialization of a nested `CollaboratorPermissions` struct
literal. -/
def decodeCollaboratorPermissionsRec (fs : List (String × RonField)) :
    Option CollaboratorPermissions := do
  let pull ← (List.lookup "pull" fs).bind asFBool
  let triage ← (List.lookup "triage" fs).bind asFBool
  let push ← (List.lookup "push" fs).bind asFBool
  let maintain ← (List.lookup "maintain" fs).bind asFBool
  let admin ← (List.lookup "admin" fs).bind asFBool
  if (fs.map Prod.fst).all (fun n =>
        n = "pull" ∨ n = "triage" ∨ n = "push" ∨ n = "maintain" ∨ n = "admin")
      ∧ (firstDup (fs.map Prod.fst)).isNone then
    return { pull, triage, push, maintain, admin }
  else none

def asCollabPermissions : RonVal → Option CollaboratorPermissions
  | .vRec fs => decodeCollaboratorPermissionsRec fs
  | _ => none

/-- Modelled from the spec: deserialization of a `Collaborator` RON
document; the struct definition is missing from `src/resource.rs`, so
the strict-schema treatment of its sibling structs (§4.2) is applied to
the two fields with which its callers build it. -/
def decodeCollaboratorDoc (fs : List (String × RonVal)) :
    Except DecodeError Collaborator := do
  checkFields ["permissions", "role_name"] fs
  let permissions ← fieldReq fs "permissions" asCollabPermissions
  let role_name ← fieldReq fs "role_name" asStr
  return { permissions, role_name }

/-- Deserialization of a `GitHubConnectorConfig` RON document
(`#[serde(deny_unknown_fields)]`, no `default`: every field required). -/
def decodeConfigDoc (fs : List (String × RonVal)) :
    Except DecodeError GitHubConnectorConfig := do
  checkFields ["orgs", "users", "enterprise_url", "concurrent_requests"] fs
  let orgs ← fieldReq fs "orgs" asStrList
  let users ← fieldReq fs "users" asStrList
  let enterprise_url ← fieldReq fs "enterprise_url" asOptStr
  let concurrent_requests ← fieldReq fs "concurrent_requests" asNat
  return { orgs, users, enterprise_url, concurrent_requests }

/-- `str::from_utf8` + `RON.from_str::<GitHubRepository>` on a body
buffer. -/
def decodeRepository : Bytes → Except DecodeError GitHubRepository
  | .malformed raw => .error (.malformedInput raw)
  | .doc fs => decodeGitHubRepositoryDoc fs

/-- `str::from_utf8` + `RON.from_str::<BranchProtection>` on a body
buffer. -/
def decodeBranchProtection : Bytes → Except DecodeError BranchProtection
  | .malformed raw => .error (.malformedInput raw)
  | .doc fs => decodeBranchProtectionDoc fs

/-- `str::from_utf8` + `RON.from_str::<Collaborator>` on a body
buffer. -/
def decodeCollaborator : Bytes → Except DecodeError Collaborator
  | .malformed raw => .error (.malformedInput raw)
  | .doc fs => decodeCollaboratorDoc fs

/-- `str::from_utf8` + `RON.from_str::<GitHubConnectorConfig>` on a body
buffer. -/
def decodeConfig : Bytes → Except DecodeError GitHubConnectorConfig
  | .malformed raw => .error (.malformedInput raw)
  | .doc fs => decodeConfigDoc fs

/-- `GitHubConnectorOp` from `src/op.rs`. -/
inductive GitHubConnectorOp where
  | CreateRepository (new : GitHubRepository)
  | UpdateRepository (old new : GitHubRepository)
  | DeleteRepository
  | CreateBranchProtection (new : BranchProtection)
  | UpdateBranchProtection (old new : BranchProtection)
  | DeleteBranchProtection
  | AddCollaborator (new : Collaborator)
  | UpdateCollaboratorPermission (old new : Collaborator)
  | RemoveCollaborator
deriving DecidableEq, Repr

/-- An element of a plan as built by the `connector_op!` macro.  The
source also attaches a `friendly_message` string assembled with
`format!` and (for updates) `diff_ron_values`; that display-only text
is produced by external formatting code and is not modelled. -/
structure PlanResponseElement where
  op : GitHubConnectorOp
deriving DecidableEq, Repr

/-- Failures of `do_plan`: the `?` on `from_path`, or the `?` on
`str::from_utf8` / `RON.from_str` when a buffer must be decoded. -/
inductive PlanError where
  | invalidAddress (path : String)
  | decode (e : DecodeError)
deriving DecidableEq, Repr

namespace GitHubConnector

open GitHubResourceAddress

/-- `GitHubConnector::do_plan` from `src/connector/plan.rs`: parse the
address, then case on the address kind and on the presence of current
and desired bytes.  Identical byte buffers short-circuit to an empty
plan before any decoding; differing buffers are decoded (current first,
then desired) and yield a single update operation; the delete arms never
decode the current bytes. -/
def do_plan (addr : String) (current desired : Option Bytes) :
    Except PlanError (List PlanResponseElement) :=
  match from_path addr with
  | .error e => .error (.invalidAddress e.path)
  | .ok a =>
    match a with
    | .Config => .ok []
    | .Repository _ _ =>
      match current, desired with
      | none, none => .ok []
      | none, some desired_bytes =>
        match decodeRepository desired_bytes with
        | .error e => .error (.decode e)
        | .ok new_repo => .ok [⟨.CreateRepository new_repo⟩]
      | some _, none => .ok [⟨.DeleteRepository⟩]
      | some current_bytes, some desired_bytes =>
        if current_bytes = desired_bytes then .ok []
        else
          match decodeRepository current_bytes with
          | .error e => .error (.decode e)
          | .ok old_repo =>
            match decodeRepository desired_bytes with
            | .error e => .error (.decode e)
            | .ok new_repo => .ok [⟨.UpdateRepository old_repo new_repo⟩]
    | .BranchProtection _ _ _ =>
      match current, desired with
      | none, none => .ok []
      | none, some desired_bytes =>
        match decodeBranchProtection desired_bytes with
        | .error e => .error (.decode e)
        | .ok new_protection => .ok [⟨.CreateBranchProtection new_protection⟩]
      | some _, none => .ok [⟨.DeleteBranchProtection⟩]
      | some current_bytes, some desired_bytes =>
        if current_bytes = desired_bytes then .ok []
        else
          match decodeBranchProtection current_bytes with
          | .error e => .error (.decode e)
          | .ok old_protection =>
            match decodeBranchProtection desired_bytes with
            | .error e => .error (.decode e)
            | .ok new_protection =>
              .ok [⟨.UpdateBranchProtection old_protection new_protection⟩]
    | .Collaborator _ _ _ =>
      match current, desired with
      | none, none => .ok []
      | none, some desired_bytes =>
        match decodeCollaborator desired_bytes with
        | .error e => .error (.decode e)
        | .ok new_collaborator => .ok [⟨.AddCollaborator new_collaborator⟩]
      | some _, none => .ok [⟨.RemoveCollaborator⟩]
      | some current_bytes, some desired_bytes =>
        if current_bytes = desired_bytes then .ok []
        else
          match decodeCollaborator current_bytes with
          | .error e => .error (.decode e)
          | .ok old_collaborator =>
            match decodeCollaborator desired_bytes with
            | .error e => .error (.decode e)
            | .ok new_collaborator =>
              .ok [⟨.UpdateCollaboratorPermission old_collaborator new_collaborator⟩]

end GitHubConnector

/-- Failures of `Connector::eq` / `Connector::diag`: address parsing, a
body that fails to parse, or — `noMatchArm` — reaching the `Collaborator`
address kind, for which the `match` in `src/connector.rs` has no arm. -/
inductive EqError where
  | invalidAddress (path : String)
  | decode (e : DecodeError)
  | noMatchArm
deriving DecidableEq, Repr

/-- `autoschematic_core::util::ron_check_eq::<T>`.  Modelled from the
spec (§4.3 EqualityOracle): parse both sides and compare the decoded
structures field-by-field. -/
def ron_check_eq {A : Type} [DecidableEq A] (dec : Bytes → Except DecodeError A)
    (a b : Bytes) : Except EqError Bool :=
  match dec a with
  | .error e => .error (.decode e)
  | .ok x =>
    match dec b with
    | .error e => .error (.decode e)
    | .ok y => .ok (decide (x = y))

/-- `DiagnosticResponse` as produced by `ron_check_syntax`: a diagnostic
carrying the parse failure. -/
structure DiagnosticResponse where
  error : DecodeError
deriving DecidableEq, Repr

/-- `autoschematic_core::util::ron_check_syntax::<T>`.  Modelled from
the spec (§4.5 SyntaxValidator): attempt to deserialize; on failure
return a non-fatal diagnostic describing the parse error, on success
return none. -/
def ron_check_syntax {A : Type} (dec : Bytes → Except DecodeError A)
    (a : Bytes) : Except EqError (Option DiagnosticResponse) :=
  match dec a with
  | .error e => .ok (some ⟨e⟩)
  | .ok _ => .ok none

namespace GitHubConnector

open GitHubResourceAddress

/-- `Connector::eq` from `src/connector.rs`: parse the address, then
dispatch `ron_check_eq` on the address kind.  The source `match` has no
arm for `Collaborator` addresses; reaching it is modelled as the
`noMatchArm` error. -/
def eq (addr : String) (a b : Bytes) : Except EqError Bool :=
  match from_path addr with
  | .error e => .error (.invalidAddress e.path)
  | .ok .Config => ron_check_eq decodeConfig a b
  | .ok (.Repository _ _) => ron_check_eq decodeRepository a b
  | .ok (.BranchProtection _ _ _) => ron_check_eq decodeBranchProtection a b
  | .ok (.Collaborator _ _ _) => .error .noMatchArm

/-- `Connector::diag` from `src/connector.rs`: parse the address, then
dispatch `ron_check_syntax` on the address kind.  The source `match` has
no arm for `Collaborator` addresses; reaching it is modelled as the
`noMatchArm` error. -/
def diag (addr : String) (a : Bytes) : Except EqError (Option DiagnosticResponse) :=
  match from_path addr with
  | .error e => .error (.invalidAddress e.path)
  | .ok .Config => ron_check_syntax decodeConfig a
  | .ok (.Repository _ _) => ron_check_syntax decodeRepository a
  | .ok (.BranchProtection _ _ _) => ron_check_syntax decodeBranchProtection a
  | .ok (.Collaborator _ _ _) => .error .noMatchArm

end GitHubConnector

/-- A well-formed address identifier (owner, repo, branch or username):
non-empty, not the special component `"."`, and free of the path
separator, so that it survives `Path::components` unchanged. -/
def wfIdent (s : String) : Prop :=
  s.data ≠ [] ∧ s.data ≠ ['.'] ∧ '/' ∉ s.data

instance (s : String) : Decidable (wfIdent s) := by
  unfold wfIdent; infer_instance

/-- Well-formedness of the identifier strings of an address. -/
def wfAddr : GitHubResourceAddress → Prop
  | .Config => True
  | .Repository owner repo => wfIdent owner ∧ wfIdent repo
  | .BranchProtection owner repo branch => wfIdent owner ∧ wfIdent repo ∧ wfIdent branch
  | .Collaborator owner repo username => wfIdent owner ∧ wfIdent repo ∧ wfIdent username

instance (a : GitHubResourceAddress) : Decidable (wfAddr a) := by
  cases a <;> (unfold wfAddr; infer_instance)

/-- The RON literal serializing each `GitHubRepository` field's
`Default` value (the explicit spelling of the value that
`#[serde(default)]` supplies when the field is omitted). -/
def repoDefaultFieldVal : String → RonVal
  | "description" => .vOptStr none
  | "homepage" => .vOptStr none
  | "topics" => .vStrList []
  | "private" => .vBool true
  | "has_issues" => .vBool true
  | "has_projects" => .vBool true
  | "has_wiki" => .vBool true
  | "allow_squash_merge" => .vBool true
  | "allow_merge_commit" => .vBool true
  | "allow_rebase_merge" => .vBool true
  | "allow_auto_merge" => .vBool false
  | "delete_branch_on_merge" => .vBool false
  | "default_branch" => .vStr "main"
  | "archived" => .vBool false
  | "disabled" => .vBool false
  | "collaborators" => .vMap []
  | _ => .vBool false

deriving instance DecidableEq for Except

/-- Whether a plan element is an `AddCollaborator` operation. -/
def isAddCollaboratorOp (e : PlanResponseElement) : Bool :=
  match e.op with
  | .AddCollaborator _ => true
  | _ => false

/-- Whether a plan element is an `UpdateCollaboratorPermission`
operation. -/
def isUpdateCollaboratorOp (e : PlanResponseElement) : Bool :=
  match e.op with
  | .UpdateCollaboratorPermission _ _ => true
  | _ => false

/-- Whether a plan element is a `RemoveCollaborator` operation. -/
def isRemoveCollaboratorOp (e : PlanResponseElement) : Bool :=
  match e.op with
  | .RemoveCollaborator => true
  | _ => false

/-- Whether a plan element is a repository-level update operation. -/
def isRepoUpdateOp (e : PlanResponseElement) : Bool :=
  match e.op with
  | .UpdateRepository _ _ => true
  | _ => false

/-- A role that is not a `Custom` wrapping one of the five builtin
permission names. -/
def notReservedCustom : Role → Prop
  | .Custom s => ¬(s = "read" ∨ s = "triage" ∨ s = "write" ∨ s = "maintain" ∨ s = "admin")
  | _ => True

instance (r : Role) : Decidable (notReservedCustom r) := by
  cases r <;> (unfold notReservedCustom; infer_instance)

/-- Current body bytes of the collaborator-only diff example from the
spec: the collaborators map holds alice with Write, every other field omitted. -/
def exCurrentBytes : Bytes :=
  .doc [("collaborators", .vMap [(("User", ["alice"]), ("Write", []))])]

/-- Desired body bytes of the collaborator-only diff example from the
spec: the collaborators map holds alice with Admin and bob with Read. -/
def exDesiredBytes : Bytes :=
  .doc [("collaborators", .vMap [(("User", ["alice"]), ("Admin", [])),
                                 (("User", ["bob"]), ("Read", []))])]

/-- The decoded current body of the example: the default repository with
alice mapped to Write as its only collaborator. -/
def exOldRepo : GitHubRepository :=
  { defaultGitHubRepository with collaborators := [(.User "alice", .Write)] }

/-- The decoded desired body of the example: the default repository with
alice mapped to Admin and bob mapped to Read. -/
def exNewRepo : GitHubRepository :=
  { defaultGitHubRepository with
      collaborators := [(.User "alice", .Admin), (.User "bob", .Read)] }

/-- A repository body stating `private: true` explicitly (the default
value spelled out). -/
def fmtBytesA : Bytes := .doc [("private", .vBool true)]

/-- A repository body omitting every field (decodes to the all-default
body). -/
def fmtBytesB : Bytes := .doc []

/-! ### Helper lemmas about path splitting -/

lemma splitOnSlash_append (xs ys : List Char) (h : '/' ∉ xs) :
    splitOnSlash (xs ++ '/' :: ys) = xs :: splitOnSlash ys := by
  induction xs with
  | nil => simp [splitOnSlash]
  | cons c cs ih =>
    have hc : c ≠ '/' := fun hc => h (hc ▸ List.mem_cons_self c cs)
    have hcs : '/' ∉ cs := fun hm => h (List.mem_cons_of_mem c hm)
    simp only [List.cons_append, splitOnSlash, if_neg hc]
    rw [List.append_eq, ih hcs]

lemma splitOnSlash_no_slash (xs : List Char) (h : '/' ∉ xs) :
    splitOnSlash xs = [xs] := by
  induction xs with
  | nil => rfl
  | cons c cs ih =>
    have hc : c ≠ '/' := fun hc => h (hc ▸ List.mem_cons_self c cs)
    have hcs : '/' ∉ cs := fun hm => h (List.mem_cons_of_mem c hm)
    simp only [splitOnSlash, if_neg hc, ih hcs]

lemma filter_keep_of_wfIdent (s : String) (h : wfIdent s) :
    (!(s.data.isEmpty || s.data = ['.'])) = true := by
  obtain ⟨h1, h2, -⟩ := h
  simp [List.isEmpty_iff, h1, h2]

lemma pathComponents_repository (o r : String) (ho : wfIdent o) (hr : wfIdent r) :
    pathComponents ("github/" ++ o ++ "/" ++ r ++ "/repository.ron")
      = ["github", o, r, "repository.ron"] := by
  unfold pathComponents
  have hdata : ("github/" ++ o ++ "/" ++ r ++ "/repository.ron").data
      = "github".data ++ '/' :: (o.data ++ '/' :: (r.data ++ '/' :: "repository.ron".data)) := by
    simp [String.data_append, List.append_assoc]
  rw [hdata,
      splitOnSlash_append _ _ (by decide),
      splitOnSlash_append _ _ ho.2.2,
      splitOnSlash_append _ _ hr.2.2,
      splitOnSlash_no_slash _ (by decide)]
  simp only [List.filter, filter_keep_of_wfIdent o ho, filter_keep_of_wfIdent r hr]
  rw [if_neg (by decide), if_neg (by decide)]
  norm_num [List.filter, List.map]

lemma pathComponents_branch_protection (o r b : String)
    (ho : wfIdent o) (hr : wfIdent r) (hb : wfIdent b) :
    pathComponents ("github/" ++ o ++ "/" ++ r ++ "/branches/" ++ b ++ "/protection.ron")
      = ["github", o, r, "branches", b, "protection.ron"] := by
  unfold pathComponents
  have hdata : ("github/" ++ o ++ "/" ++ r ++ "/branches/" ++ b ++ "/protection.ron").data
      = "github".data ++ '/' :: (o.data ++ '/' :: (r.data ++ '/' ::
          ("branches".data ++ '/' :: (b.data ++ '/' :: "protection.ron".data)))) := by
    simp [String.data_append, List.append_assoc]
  rw [hdata,
      splitOnSlash_append _ _ (by decide),
      splitOnSlash_append _ _ ho.2.2,
      splitOnSlash_append _ _ hr.2.2,
      splitOnSlash_append _ _ (by decide),
      splitOnSlash_append _ _ hb.2.2,
      splitOnSlash_no_slash _ (by decide)]
  simp only [List.filter, filter_keep_of_wfIdent o ho, filter_keep_of_wfIdent r hr,
             filter_keep_of_wfIdent b hb]
  rw [if_neg (by decide), if_neg (by decide)]
  norm_num [List.filter, List.map]

lemma ron_component_no_slash (u : String) (hu : wfIdent u) :
    '/' ∉ u.data ++ ".ron".data := by
  intro hm
  rcases List.mem_append.mp hm with h | h
  · exact hu.2.2 h
  · exact absurd h (by decide)

lemma filter_keep_ron (u : String) :
    (!((u.data ++ ".ron".data).isEmpty || u.data ++ ".ron".data = ['.'])) = true := by
  have h1 : u.data ++ ".ron".data ≠ [] := by simp
  have h2 : u.data ++ ".ron".data ≠ ['.'] := by
    intro h
    have := congrArg List.length h
    simp at this
  simp [List.isEmpty_iff, h1, h2]

lemma pathComponents_collaborator (o r u : String)
    (ho : wfIdent o) (hr : wfIdent r) (hu : wfIdent u) :
    pathComponents ("github/" ++ o ++ "/" ++ r ++ "/collaborators/" ++ u ++ ".ron")
      = ["github", o, r, "collaborators", String.mk (u.data ++ ".ron".data)] := by
  unfold pathComponents
  have hdata : ("github/" ++ o ++ "/" ++ r ++ "/collaborators/" ++ u ++ ".ron").data
      = "github".data ++ '/' :: (o.data ++ '/' :: (r.data ++ '/' ::
          ("collaborators".data ++ '/' :: (u.data ++ ".ron".data)))) := by
    simp [String.data_append, List.append_assoc]
  rw [hdata,
      splitOnSlash_append _ _ (by decide),
      splitOnSlash_append _ _ ho.2.2,
      splitOnSlash_append _ _ hr.2.2,
      splitOnSlash_append _ _ (by decide),
      splitOnSlash_no_slash _ (ron_component_no_slash u hu)]
  simp only [List.filter, filter_keep_of_wfIdent o ho, filter_keep_of_wfIdent r hr,
             filter_keep_ron u]
  rw [if_neg (by decide), if_neg (by decide)]
  norm_num [List.filter, List.map]

lemma endsWithRon_append (u : List Char) : endsWithRon (u ++ ['.', 'r', 'o', 'n']) = true := by
  unfold endsWithRon
  rw [List.reverse_append, show (['.', 'r', 'o', 'n'] : List Char).reverse = ['n', 'o', 'r', '.'] by decide]
  simp [List.take_succ_cons]

lemma stripRonSuffix_append (u : List Char) : stripRonSuffix (u ++ ['.', 'r', 'o', 'n']) = u := by
  unfold stripRonSuffix
  rw [List.reverse_append, show (['.', 'r', 'o', 'n'] : List Char).reverse = ['n', 'o', 'r', '.'] by decide]
  simp [List.drop_succ_cons]

lemma lookup_none_of_not_mem {β : Type} (n : String) (fs : List (String × β))
    (h : n ∉ fs.map Prod.fst) : List.lookup n fs = none := by
  induction fs with
  | nil => rfl
  | cons kv rest ih =>
    obtain ⟨k, v⟩ := kv
    have hne : (n == k) = false := by
      refine beq_eq_false_iff_ne.mpr fun he => h ?_
      simp [he]
    have hrest : n ∉ rest.map Prod.fst := fun hm => h (by simp [hm])
    simp [List.lookup, hne, ih hrest]

lemma lookup_append_single {β : Type} (n' name : String) (fs : List (String × β)) (dv : β) :
    List.lookup n' (fs ++ [(name, dv)])
      = (match List.lookup n' fs with
         | some v => some v
         | none => if n' = name then some dv else none) := by
  induction fs with
  | nil =>
    by_cases h : n' = name
    · simp [List.lookup, h]
    · simp [List.lookup, beq_eq_false_iff_ne.mpr h, h]
  | cons kv rest ih =>
    obtain ⟨k, v⟩ := kv
    by_cases h : n' = k
    · simp [List.lookup, beq_iff_eq.mpr h]
    · simp [List.lookup, beq_eq_false_iff_ne.mpr h, ih]

lemma firstUnknown_append (allowed ns : List String) (n : String)
    (h : n ∈ allowed) :
    firstUnknown allowed (ns ++ [n]) = firstUnknown allowed ns := by
  simp [firstUnknown, List.find?_append, List.find?, h]

lemma firstDup_append (ns : List String) (n : String) (h : n ∉ ns) :
    firstDup (ns ++ [n]) = firstDup ns := by
  induction ns with
  | nil => simp [firstDup]
  | cons m rest ih =>
    have hmn : m ≠ n := fun he => h (he ▸ List.mem_cons_self m rest)
    have hrest : n ∉ rest := fun hm => h (List.mem_cons_of_mem m hm)
    simp only [List.cons_append, firstDup]
    have hc : ((rest ++ [n]).contains m) = (rest.contains m) := by
      simp [List.mem_append, hmn]
    rw [List.append_eq, hc, ih hrest]

lemma checkFields_append (allowed : List String) (fs : List (String × RonVal))
    (name : String) (dv : RonVal) (hmem : name ∈ allowed)
    (habs : name ∉ fs.map Prod.fst) :
    checkFields allowed (fs ++ [(name, dv)]) = checkFields allowed fs := by
  unfold checkFields
  rw [List.map_append]
  simp only [List.map_cons, List.map_nil]
  rw [firstUnknown_append _ _ _ hmem, firstDup_append _ _ habs]

lemma fieldOpt_append_ne {A : Type} (fs : List (String × RonVal)) (name n' : String)
    (dv : RonVal) (dec : RonVal → Option A) (dflt : A) (hne : n' ≠ name) :
    fieldOpt (fs ++ [(name, dv)]) n' dec dflt = fieldOpt fs n' dec dflt := by
  unfold fieldOpt
  rw [lookup_append_single]
  cases List.lookup n' fs <;> simp [hne]

lemma fieldOpt_append_self {A : Type} (fs : List (String × RonVal)) (name : String)
    (dv : RonVal) (dec : RonVal → Option A) (dflt : A)
    (habs : name ∉ fs.map Prod.fst) (hdec : dec dv = some dflt) :
    fieldOpt (fs ++ [(name, dv)]) name dec dflt = .ok dflt := by
  unfold fieldOpt
  rw [lookup_append_single, lookup_none_of_not_mem name fs habs]
  simp [hdec]

lemma fieldOpt_absent {A : Type} (fs : List (String × RonVal)) (name : String)
    (dec : RonVal → Option A) (dflt : A) (habs : name ∉ fs.map Prod.fst) :
    fieldOpt fs name dec dflt = .ok dflt := by
  unfold fieldOpt
  rw [lookup_none_of_not_mem name fs habs]

lemma decodeRepoDoc_append_default (fs : List (String × RonVal)) (name : String)
    (hmem : name ∈ repoFieldNames) (habs : name ∉ fs.map Prod.fst) :
    decodeGitHubRepositoryDoc (fs ++ [(name, repoDefaultFieldVal name)])
      = decodeGitHubRepositoryDoc fs := by
  have hck := checkFields_append repoFieldNames fs name (repoDefaultFieldVal name) hmem habs
  simp only [repoFieldNames, List.mem_cons, List.not_mem_nil, or_false] at hmem
  rcases hmem with rfl | rfl | rfl | rfl | rfl | rfl | rfl | rfl | rfl | rfl | rfl | rfl | rfl | rfl | rfl | rfl
  all_goals
    unfold decodeGitHubRepositoryDoc
  all_goals
    rw [hck]
  all_goals
    simp (disch := decide) only [fieldOpt_append_ne]
  all_goals
    rw [fieldOpt_append_self fs _ _ _ _ habs (by rfl), fieldOpt_absent fs _ _ _ habs]

lemma checkFields_unknown (allowed : List String) (fs : List (String × RonVal))
    (name : String) (h1 : name ∈ fs.map Prod.fst) (h2 : name ∉ allowed) :
    ∃ n, checkFields allowed fs = .error (.unknownField n) := by
  unfold checkFields firstUnknown
  have hex : ∃ x, x ∈ fs.map Prod.fst ∧ (!(allowed.contains x)) = true :=
    ⟨name, h1, by simp [h2]⟩
  obtain ⟨n, hn⟩ := Option.isSome_iff_exists.mp (List.find?_isSome.mpr hex)
  rw [hn]
  exact ⟨n, rfl⟩

lemma decodeRepoDoc_unknown (fs : List (String × RonVal)) (name : String)
    (h1 : name ∈ fs.map Prod.fst) (h2 : name ∉ repoFieldNames) :
    ∃ n, decodeGitHubRepositoryDoc fs = .error (.unknownField n) := by
  obtain ⟨n, hn⟩ := checkFields_unknown repoFieldNames fs name h1 h2
  exact ⟨n, by unfold decodeGitHubRepositoryDoc; rw [hn]; rfl⟩

lemma decodeBpDoc_unknown (fs : List (String × RonVal)) (name : String)
    (h1 : name ∈ fs.map Prod.fst) (h2 : name ∉ bpFieldNames) :
    ∃ n, decodeBranchProtectionDoc fs = .error (.unknownField n) := by
  obtain ⟨n, hn⟩ := checkFields_unknown bpFieldNames fs name h1 h2
  exact ⟨n, by unfold decodeBranchProtectionDoc; rw [hn]; rfl⟩

lemma from_path_cases (p : String) :
    GitHubResourceAddress.from_path p = .error ⟨p⟩
      ∨ ∃ a, GitHubResourceAddress.from_path p = .ok a := by
  unfold GitHubResourceAddress.from_path
  split
  · split
    · right; exact ⟨_, rfl⟩
    · left; rfl
  · split
    · right; exact ⟨_, rfl⟩
    · left; rfl
  · split
    · right; exact ⟨_, rfl⟩
    · left; rfl
  · left; rfl

/-- C2 (counterexample): the path encoding the `Config` address,
`github/config.ron`, does not decode back to `Config`: `from_path` has
no arm matching the two-component config path and returns the
`InvalidAddress` error instead. -/
theorem addr_roundtrip_config_fails :
    GitHubResourceAddress.from_path (GitHubResourceAddress.to_path_buf .Config)
        = .error ⟨"github/config.ron"⟩
      ∧ GitHubResourceAddress.from_path (GitHubResourceAddress.to_path_buf .Config)
        ≠ .ok .Config := by
  decide

/-- C2 (amended): for every constructible address other than `Config`
whose identifier strings are non-empty, are not `"."`, and contain no
path separator, decoding the path produced by encoding returns the
address again. -/
theorem addr_roundtrip_nonconfig (a : GitHubResourceAddress)
    (hc : a ≠ .Config) (hw : wfAddr a) :
    GitHubResourceAddress.from_path a.to_path_buf = .ok a := by
  cases a with
  | Config => exact absurd rfl hc
  | Repository o r =>
    obtain ⟨ho, hr⟩ := hw
    unfold GitHubResourceAddress.to_path_buf GitHubResourceAddress.from_path
    rw [pathComponents_repository o r ho hr]
    simp
  | BranchProtection o r b =>
    obtain ⟨ho, hr, hb⟩ := hw
    unfold GitHubResourceAddress.to_path_buf GitHubResourceAddress.from_path
    rw [pathComponents_branch_protection o r b ho hr hb]
    simp
  | Collaborator o r u =>
    obtain ⟨ho, hr, hu⟩ := hw
    unfold GitHubResourceAddress.to_path_buf GitHubResourceAddress.from_path
    rw [pathComponents_collaborator o r u ho hr hu]
    simp [endsWithRon_append, stripRonSuffix_append]

/-- C2 (witness): the round trip at a concrete collaborator address. -/
theorem addr_roundtrip_nonconfig_witness :
    GitHubResourceAddress.from_path
        (GitHubResourceAddress.to_path_buf (.Collaborator "acme" "widgets" "alice"))
      = .ok (.Collaborator "acme" "widgets" "alice") :=
  addr_roundtrip_nonconfig (.Collaborator "acme" "widgets" "alice") (by decide) (by decide)

/-- C4 (counterexample): the round trip `from_str (to_string r) = r`
fails at `Custom "read"`, which serializes to `"read"` and parses back
as the builtin `Read` variant. -/
theorem role_string_roundtrip_cex :
    Role.from_str (Role.Custom "read").to_string = Role.Read
      ∧ Role.from_str (Role.Custom "read").to_string ≠ Role.Custom "read" := by
  decide

/-- C4 (amended): `to_string (from_str s) = s` for every string, and
`from_str (to_string r) = r` for every role except a `Custom` wrapping
one of the five builtin permission names. -/
theorem role_string_roundtrip_amended :
    (∀ s : String, (Role.from_str s).to_string = s)
      ∧ (∀ r : Role, notReservedCustom r → Role.from_str r.to_string = r) := by
  constructor
  · intro s
    unfold Role.from_str
    split_ifs with h1 h2 h3 h4 h5 <;> simp [Role.to_string, *]
  · intro r h
    cases r with
    | Custom s =>
      show Role.from_str s = Role.Custom s
      unfold notReservedCustom at h
      push_neg at h
      unfold Role.from_str
      rw [if_neg h.1, if_neg h.2.1, if_neg h.2.2.1, if_neg h.2.2.2.1, if_neg h.2.2.2.2]
    | Read => decide
    | Triage => decide
    | Write => decide
    | Maintain => decide
    | Admin => decide

/-- C4 (witness): both directions at concrete inputs. -/
theorem role_string_roundtrip_amended_witness :
    Role.from_str (Role.Custom "boss").to_string = Role.Custom "boss" :=
  role_string_roundtrip_amended.2 (Role.Custom "boss") (by decide)

/-- C6: for every path that parses to a valid address, planning with
byte-identical current and desired buffers short-circuits to an empty
plan without decoding, so it succeeds even on malformed bytes. -/
theorem plan_identical_bytes_empty (p : String) (a : GitHubResourceAddress)
    (X : Bytes) (h : GitHubResourceAddress.from_path p = .ok a) :
    GitHubConnector.do_plan p (some X) (some X) = .ok [] := by
  unfold GitHubConnector.do_plan
  rw [h]
  cases a <;> simp

/-- C6 (witness): identical malformed buffers at a repository address
still produce the empty plan. -/
theorem plan_identical_bytes_empty_witness :
    GitHubConnector.do_plan "github/acme/widgets/repository.ron"
        (some (.malformed "((((")) (some (.malformed "((((")) = .ok [] :=
  plan_identical_bytes_empty _ (.Repository "acme" "widgets") _ (by decide)

/-- On a valid UTF-8 path whose component sequence matches none of the
known address shapes, `from_path` returns the structured
`InvalidAddress` error carrying the offending path (supporting lemma
for the C8 divergence: the no-panic half of the claim holds only on the
UTF-8 fragment of the path space). -/
theorem from_path_invalid_structured_error (p : String)
    (h : ∀ a, GitHubResourceAddress.from_path p ≠ .ok a) :
    GitHubResourceAddress.from_path p = .error ⟨p⟩ := by
  rcases from_path_cases p with h1 | ⟨a, ha⟩
  · exact h1
  · exact absurd ha (h a)

/-- The preceding lemma exercised at the spec's example of an invalid
path. -/
theorem from_path_invalid_structured_error_witness :
    GitHubResourceAddress.from_path "github/not/a/known/shape"
      = .error ⟨"github/not/a/known/shape"⟩ :=
  from_path_invalid_structured_error "github/not/a/known/shape" (fun a ha => by
    rw [show GitHubResourceAddress.from_path "github/not/a/known/shape"
          = .error ⟨"github/not/a/known/shape"⟩ by decide] at ha
    exact Except.noConfusion ha)

/-- C8 (code bug): `from_path` does not satisfy the never-panics
contract of spec §3/§7.  At a path holding a non-UTF-8 byte component —
constructible on Unix, where `Path` wraps arbitrary bytes, e.g. the
bytes 0x67 0x69 0xFF — the per-component `to_str().unwrap()` at
`src/addr.rs` line 28 panics (modelled as `none`) before any shape
matching, instead of returning the structured `InvalidAddress` error
the claim requires; on a valid UTF-8 unmatched path the structured
error is returned. -/
theorem from_path_panics_on_non_utf8 :
    from_path_os (.hasNonUtf8 [0x67, 0x69, 0xFF]) = none
      ∧ from_path_os (.utf8 "github/not/a/known/shape")
          = some (.error ⟨"github/not/a/known/shape"⟩) := by
  constructor
  · rfl
  · decide

/-- C9 (counterexample): planning at the `Config` path does not return
an empty plan: `from_path` has no arm for `github/config.ron`, so
`do_plan` returns an `InvalidAddress` error for the config address —
the `Config` arm of the planner's match is unreachable. -/
theorem plan_config_path_errors_cex :
    GitHubConnector.do_plan "github/config.ron" (some (.doc []))
        (some (.doc [("users", .vStrList [])]))
      = .error (.invalidAddress "github/config.ron")
      ∧ GitHubConnector.do_plan "github/config.ron" (some (.doc []))
          (some (.doc [("users", .vStrList [])])) ≠ .ok [] := by
  decide

/-- C9 (amended): for every combination of current and desired bytes,
planning at the config path `github/config.ron` returns the structured
`InvalidAddress` error (never `Ok`): the `Config` match arm in the
planner is dead code because `from_path` never produces `Config`. -/
theorem plan_config_path_invalid_address (cur des : Option Bytes) :
    GitHubConnector.do_plan "github/config.ron" cur des
      = .error (.invalidAddress "github/config.ron") := by
  unfold GitHubConnector.do_plan
  rw [show GitHubResourceAddress.from_path "github/config.ron"
        = .error ⟨"github/config.ron"⟩ by decide]

/-- C1 (counterexample): with current collaborators mapping alice to
Write and desired mapping alice to Admin and bob to Read (no other field
differing), `do_plan` emits a single monolithic `UpdateRepository`
operation: zero `AddCollaborator`, zero `UpdateCollaboratorPermission`,
zero `RemoveCollaborator`, and one repository-level update — the
opposite of the claimed per-principal decomposition. -/
theorem plan_collaborator_diff_not_decomposed_cex :
    GitHubConnector.do_plan "github/acme/widgets/repository.ron"
        (some exCurrentBytes) (some exDesiredBytes)
      = .ok [⟨.UpdateRepository exOldRepo exNewRepo⟩]
      ∧ [PlanResponseElement.mk (.UpdateRepository exOldRepo exNewRepo)].countP isAddCollaboratorOp = 0
      ∧ [PlanResponseElement.mk (.UpdateRepository exOldRepo exNewRepo)].countP isUpdateCollaboratorOp = 0
      ∧ [PlanResponseElement.mk (.UpdateRepository exOldRepo exNewRepo)].countP isRemoveCollaboratorOp = 0
      ∧ [PlanResponseElement.mk (.UpdateRepository exOldRepo exNewRepo)].countP isRepoUpdateOp = 1 := by
  decide

open GitHubResourceAddress in
/-- C1 (amended): when current and desired bytes differ and both decode,
with the decoded bodies differing only in the collaborators mapping,
`do_plan` for a repository address emits exactly one monolithic
`UpdateRepository(old, new)` operation and no collaborator-level
operations; per-principal Add/Update/Remove operations arise only from
separate `Collaborator` addresses. -/
theorem plan_repo_update_not_decomposed (p o r : String) (a b : Bytes)
    (ra rb : GitHubRepository)
    (haddr : from_path p = .ok (.Repository o r))
    (hne : a ≠ b)
    (hca : decodeRepository a = .ok ra)
    (hcb : decodeRepository b = .ok rb)
    (honly : { ra with collaborators := [] } = { rb with collaborators := [] }) :
    GitHubConnector.do_plan p (some a) (some b)
        = .ok [⟨.UpdateRepository ra rb⟩]
      ∧ [PlanResponseElement.mk (.UpdateRepository ra rb)].countP isAddCollaboratorOp = 0
      ∧ [PlanResponseElement.mk (.UpdateRepository ra rb)].countP isUpdateCollaboratorOp = 0
      ∧ [PlanResponseElement.mk (.UpdateRepository ra rb)].countP isRemoveCollaboratorOp = 0 := by
  refine ⟨?_, rfl, rfl, rfl⟩
  unfold GitHubConnector.do_plan
  rw [haddr]
  simp [hne, hca, hcb]

/-- C1 (witness): the amended statement at the spec's example bodies. -/
theorem plan_repo_update_not_decomposed_witness :
    GitHubConnector.do_plan "github/acme/widgets/repository.ron"
        (some exCurrentBytes) (some exDesiredBytes)
        = .ok [⟨.UpdateRepository exOldRepo exNewRepo⟩]
      ∧ [PlanResponseElement.mk (.UpdateRepository exOldRepo exNewRepo)].countP isAddCollaboratorOp = 0
      ∧ [PlanResponseElement.mk (.UpdateRepository exOldRepo exNewRepo)].countP isUpdateCollaboratorOp = 0
      ∧ [PlanResponseElement.mk (.UpdateRepository exOldRepo exNewRepo)].countP isRemoveCollaboratorOp = 0 :=
  plan_repo_update_not_decomposed "github/acme/widgets/repository.ron" "acme" "widgets"
    exCurrentBytes exDesiredBytes exOldRepo exNewRepo
    (by decide) (by decide) (by decide) (by decide) (by decide)

/-- C3 (counterexample): two byte buffers that differ (explicit default
`private: true` versus all fields omitted) decode to the same structure,
yet `do_plan` emits an `UpdateRepository` operation instead of the
claimed empty list (the planner never compares the decoded structures);
`eq` does return true. -/
theorem plan_formatting_insensitivity_cex :
    fmtBytesA ≠ fmtBytesB
      ∧ decodeRepository fmtBytesA = .ok defaultGitHubRepository
      ∧ decodeRepository fmtBytesB = .ok defaultGitHubRepository
      ∧ GitHubConnector.do_plan "github/acme/widgets/repository.ron"
          (some fmtBytesA) (some fmtBytesB)
          = .ok [⟨.UpdateRepository defaultGitHubRepository defaultGitHubRepository⟩]
      ∧ GitHubConnector.do_plan "github/acme/widgets/repository.ron"
          (some fmtBytesA) (some fmtBytesB) ≠ .ok []
      ∧ GitHubConnector.eq "github/acme/widgets/repository.ron" fmtBytesA fmtBytesB
          = .ok true := by
  decide

open GitHubResourceAddress in
/-- C3 (amended): for differing byte buffers that decode to equal
bodies, `do_plan` emits exactly one update operation whose old and new
bodies are that same decoded body (not an empty list); `eq` returns true
for repository and branch-protection addresses, while for collaborator
addresses the `eq` match in the source has no arm at all. -/
theorem plan_equal_decode_single_update :
    (∀ (p o r : String) (a b : Bytes) (x : GitHubRepository),
        from_path p = .ok (.Repository o r) → a ≠ b →
        decodeRepository a = .ok x → decodeRepository b = .ok x →
        GitHubConnector.do_plan p (some a) (some b) = .ok [⟨.UpdateRepository x x⟩]
          ∧ GitHubConnector.eq p a b = .ok true)
      ∧ (∀ (p o r br : String) (a b : Bytes) (x : BranchProtection),
          from_path p = .ok (.BranchProtection o r br) → a ≠ b →
          decodeBranchProtection a = .ok x → decodeBranchProtection b = .ok x →
          GitHubConnector.do_plan p (some a) (some b) = .ok [⟨.UpdateBranchProtection x x⟩]
            ∧ GitHubConnector.eq p a b = .ok true)
      ∧ (∀ (p o r u : String) (a b : Bytes) (x : Collaborator),
          from_path p = .ok (.Collaborator o r u) → a ≠ b →
          decodeCollaborator a = .ok x → decodeCollaborator b = .ok x →
          GitHubConnector.do_plan p (some a) (some b)
              = .ok [⟨.UpdateCollaboratorPermission x x⟩]
            ∧ GitHubConnector.eq p a b = .error .noMatchArm) := by
  refine ⟨?_, ?_, ?_⟩
  · intro p o r a b x haddr hne h1 h2
    constructor
    · unfold GitHubConnector.do_plan
      rw [haddr]
      simp [hne, h1, h2]
    · unfold GitHubConnector.eq
      rw [haddr]
      unfold ron_check_eq
      rw [h1, h2]
      simp
  · intro p o r br a b x haddr hne h1 h2
    constructor
    · unfold GitHubConnector.do_plan
      rw [haddr]
      simp [hne, h1, h2]
    · unfold GitHubConnector.eq
      rw [haddr]
      unfold ron_check_eq
      rw [h1, h2]
      simp
  · intro p o r u a b x haddr hne h1 h2
    constructor
    · unfold GitHubConnector.do_plan
      rw [haddr]
      simp [hne, h1, h2]
    · unfold GitHubConnector.eq
      rw [haddr]

/-- C3 (witness): the amended statement at the counterexample's
formatting-only change. -/
theorem plan_equal_decode_single_update_witness :
    GitHubConnector.do_plan "github/acme/widgets/repository.ron"
        (some fmtBytesA) (some fmtBytesB)
        = .ok [⟨.UpdateRepository defaultGitHubRepository defaultGitHubRepository⟩]
      ∧ GitHubConnector.eq "github/acme/widgets/repository.ron" fmtBytesA fmtBytesB
        = .ok true :=
  plan_equal_decode_single_update.1 "github/acme/widgets/repository.ron" "acme" "widgets"
    fmtBytesA fmtBytesB defaultGitHubRepository
    (by decide) (by decide) (by decide) (by decide)

open GitHubResourceAddress in
/-- C5: for repository and branch-protection addresses, planning with no
current and a decodable desired body yields exactly one create-shaped
operation carrying the decoded body, and planning with a current body
and no desired body yields exactly one delete-shaped operation for
*every* current byte buffer (the current bytes are never decoded). -/
theorem plan_birth_death :
    (∀ (p o r : String) (d : Bytes) (x : GitHubRepository),
        from_path p = .ok (.Repository o r) → decodeRepository d = .ok x →
        GitHubConnector.do_plan p none (some d) = .ok [⟨.CreateRepository x⟩])
      ∧ (∀ (p o r : String) (c : Bytes),
          from_path p = .ok (.Repository o r) →
          GitHubConnector.do_plan p (some c) none = .ok [⟨.DeleteRepository⟩])
      ∧ (∀ (p o r br : String) (d : Bytes) (x : BranchProtection),
          from_path p = .ok (.BranchProtection o r br) → decodeBranchProtection d = .ok x →
          GitHubConnector.do_plan p none (some d) = .ok [⟨.CreateBranchProtection x⟩])
      ∧ (∀ (p o r br : String) (c : Bytes),
          from_path p = .ok (.BranchProtection o r br) →
          GitHubConnector.do_plan p (some c) none = .ok [⟨.DeleteBranchProtection⟩]) := by
  refine ⟨?_, ?_, ?_, ?_⟩
  · intro p o r d x haddr hd
    unfold GitHubConnector.do_plan
    rw [haddr]
    simp [hd]
  · intro p o r c haddr
    unfold GitHubConnector.do_plan
    rw [haddr]
  · intro p o r br d x haddr hd
    unfold GitHubConnector.do_plan
    rw [haddr]
    simp [hd]
  · intro p o r br c haddr
    unfold GitHubConnector.do_plan
    rw [haddr]

/-- C5 (witness): birth at a decodable desired body and death at a
malformed current body (which the delete path never decodes). -/
theorem plan_birth_death_witness :
    GitHubConnector.do_plan "github/acme/widgets/repository.ron" none (some (.doc []))
        = .ok [⟨.CreateRepository defaultGitHubRepository⟩]
      ∧ GitHubConnector.do_plan "github/acme/widgets/repository.ron"
          (some (.malformed "not ron")) none = .ok [⟨.DeleteRepository⟩] :=
  ⟨plan_birth_death.1 "github/acme/widgets/repository.ron" "acme" "widgets"
      (.doc []) defaultGitHubRepository (by decide) (by decide),
   plan_birth_death.2.1 "github/acme/widgets/repository.ron" "acme" "widgets"
      (.malformed "not ron") (by decide)⟩

open GitHubResourceAddress in
/-- C7: a body buffer containing a field name outside the schema is
rejected: `diag` returns a diagnostic, and `do_plan` with that buffer as
desired surfaces a parse error instead of ignoring the field, for both
repository and branch-protection addresses. -/
theorem strict_schema_unknown_field :
    (∀ (p o r : String) (fs : List (String × RonVal)) (name : String),
        from_path p = .ok (.Repository o r) →
        name ∈ fs.map Prod.fst → name ∉ repoFieldNames →
        (∃ d, GitHubConnector.diag p (.doc fs) = .ok (some d))
          ∧ (∃ e, GitHubConnector.do_plan p none (some (.doc fs)) = .error (.decode e)))
      ∧ (∀ (p o r br : String) (fs : List (String × RonVal)) (name : String),
          from_path p = .ok (.BranchProtection o r br) →
          name ∈ fs.map Prod.fst → name ∉ bpFieldNames →
          (∃ d, GitHubConnector.diag p (.doc fs) = .ok (some d))
            ∧ (∃ e, GitHubConnector.do_plan p none (some (.doc fs)) = .error (.decode e))) := by
  constructor
  · intro p o r fs name h1 h2 h3
    obtain ⟨n, hn⟩ := decodeRepoDoc_unknown fs name h2 h3
    have hn' : decodeRepository (.doc fs) = .error (.unknownField n) := hn
    constructor
    · refine ⟨⟨.unknownField n⟩, ?_⟩
      unfold GitHubConnector.diag
      rw [h1]
      unfold ron_check_syntax
      rw [hn']
    · refine ⟨.unknownField n, ?_⟩
      unfold GitHubConnector.do_plan
      rw [h1]
      simp [hn']
  · intro p o r br fs name h1 h2 h3
    obtain ⟨n, hn⟩ := decodeBpDoc_unknown fs name h2 h3
    have hn' : decodeBranchProtection (.doc fs) = .error (.unknownField n) := hn
    constructor
    · refine ⟨⟨.unknownField n⟩, ?_⟩
      unfold GitHubConnector.diag
      rw [h1]
      unfold ron_check_syntax
      rw [hn']
    · refine ⟨.unknownField n, ?_⟩
      unfold GitHubConnector.do_plan
      rw [h1]
      simp [hn']

/-- C7 (witness): the misspelled field `has_issuez` is diagnosed and
makes planning fail. -/
theorem strict_schema_unknown_field_witness :
    (∃ d, GitHubConnector.diag "github/acme/widgets/repository.ron"
        (.doc [("has_issuez", .vBool true)]) = .ok (some d))
      ∧ (∃ e, GitHubConnector.do_plan "github/acme/widgets/repository.ron"
          none (some (.doc [("has_issuez", .vBool true)])) = .error (.decode e)) :=
  strict_schema_unknown_field.1 "github/acme/widgets/repository.ron" "acme" "widgets"
    [("has_issuez", .vBool true)] "has_issuez" (by decide) (by decide) (by decide)

open GitHubResourceAddress in
/-- C10: decoding fills every omitted repository field with its default
(the empty record decodes to the all-default body with private,
has_issues, has_projects, has_wiki and the three merge flags true and
default_branch "main"), and appending the explicit default value of an
omitted schema field leaves the decoded body unchanged, so `eq` treats
the two spellings as equal. -/
theorem repo_defaults_on_missing_fields :
    decodeRepository (.doc [])
        = .ok { description := none, homepage := none, topics := [],
                «private» := true, has_issues := true, has_projects := true,
                has_wiki := true, allow_squash_merge := true,
                allow_merge_commit := true, allow_rebase_merge := true,
                allow_auto_merge := false, delete_branch_on_merge := false,
                default_branch := "main", archived := false, disabled := false,
                collaborators := [] }
      ∧ (∀ (p o r : String) (fs : List (String × RonVal)) (name : String),
          from_path p = .ok (.Repository o r) →
          name ∈ repoFieldNames → name ∉ fs.map Prod.fst →
          decodeRepository (.doc (fs ++ [(name, repoDefaultFieldVal name)]))
              = decodeRepository (.doc fs)
            ∧ ∀ x, decodeRepository (.doc fs) = .ok x →
                GitHubConnector.eq p (.doc fs)
                    (.doc (fs ++ [(name, repoDefaultFieldVal name)])) = .ok true) := by
  constructor
  · decide
  · intro p o r fs name h1 h2 h3
    have hd : decodeRepository (.doc (fs ++ [(name, repoDefaultFieldVal name)]))
        = decodeRepository (.doc fs) := decodeRepoDoc_append_default fs name h2 h3
    refine ⟨hd, ?_⟩
    intro x hx
    unfold GitHubConnector.eq
    rw [h1]
    unfold ron_check_eq
    rw [hx, hd.trans hx]
    simp

/-- C10 (witness): a body omitting `private` is judged equal to one
stating `private: true` explicitly. -/
theorem repo_defaults_on_missing_fields_witness :
    GitHubConnector.eq "github/acme/widgets/repository.ron" (.doc [])
        (.doc ([] ++ [("private", repoDefaultFieldVal "private")])) = .ok true :=
  (repo_defaults_on_missing_fields.2 "github/acme/widgets/repository.ron" "acme" "widgets"
      [] "private" (by decide) (by decide) (by decide)).2
    defaultGitHubRepository (by decide)
